import Mathlib

/-!
Verification of `pkg/queue/protobuf_stats_reporter.go` (knative-serving).

The Go code works over `float64`.  We embed it over an arbitrary carrier
type `F` equipped with subtraction and division, so every theorem holds
for all values of the carrier (negative, zero, and — for carriers that
have them — non-finite elements alike); witnesses instantiate `F := ℚ`.
Time instants (`time.Time`) are embedded as values of `F` measured in
seconds, so `time.Since(start)` at instant `now` is `now - start` and
`reportingPeriod.Seconds()` is passed in directly as seconds.
-/

/-- Embeds `network.RequestStatsReport` (the raw windowed report handed to
`Report`): the four float64 fields read by this file. -/
structure RequestStatsReport (F : Type) where
  requestCount : F
  proxiedRequestCount : F
  averageConcurrency : F
  averageProxiedConcurrency : F
  deriving DecidableEq, Repr

/-- Embeds `metrics.Stat` (the normalized snapshot stored in the cell):
the six fields set by `Report`. -/
structure Stat (F : Type) where
  podName : String
  processUptime : F
  requestCount : F
  proxiedRequestCount : F
  averageConcurrentRequests : F
  averageProxiedConcurrentRequests : F
  deriving DecidableEq, Repr

/-- Embeds the `ProtobufStatsReporter` struct.  The `stat atomic.Value`
field holds either nothing (initial state) or one complete `metrics.Stat`;
we embed it as `Option (Stat F)`. -/
structure ProtobufStatsReporter (F : Type) where
  startTime : F
  stat : Option (Stat F)
  podName : String
  reportingPeriodSeconds : F
  deriving DecidableEq, Repr

/-- Embeds `NewProtobufStatsReporter`: captures the current time as
`startTime`, stores the pod name and the reporting period in seconds;
the cell starts empty (`atomic.Value` zero value). -/
def NewProtobufStatsReporter (F : Type) (pod : String) (now : F)
    (reportingPeriodSeconds : F) : ProtobufStatsReporter F :=
  { startTime := now
    stat := none
    podName := pod
    reportingPeriodSeconds := reportingPeriodSeconds }

/-- The `metrics.Stat` value constructed inside `Report` at instant
`now` from the raw report `stats`. -/
def ProtobufStatsReporter.reportedStat {F : Type} [Sub F] [Div F]
    (r : ProtobufStatsReporter F) (now : F) (stats : RequestStatsReport F) :
    Stat F :=
  { podName := r.podName
    processUptime := now - r.startTime
    requestCount := stats.requestCount / r.reportingPeriodSeconds
    proxiedRequestCount := stats.proxiedRequestCount / r.reportingPeriodSeconds
    averageConcurrentRequests := stats.averageConcurrency
    averageProxiedConcurrentRequests := stats.averageProxiedConcurrency }

/-- Embeds `ProtobufStatsReporter.Report`: builds the normalized
`metrics.Stat` and stores it into the cell with a single `atomic.Value.Store`
(overwriting whatever was there).  It is total: no validation, no error
path. -/
def ProtobufStatsReporter.Report {F : Type} [Sub F] [Div F]
    (r : ProtobufStatsReporter F) (now : F) (stats : RequestStatsReport F) :
    ProtobufStatsReporter F :=
  { r with stat := some (r.reportedStat now stats) }

/-- Bodies a `serve` call can write: nothing yet, an error text written by
`http.Error`, or marshalled bytes written by `w.Write(buffer)`. -/
inductive Body where
  | empty
  | text (s : String)
  | bytes (b : List Nat)
  deriving DecidableEq, Repr

/-- The response writer state observed by one scrape: status code (Go's
implicit default is 200 until `WriteHeader` is called), headers, body. -/
structure Response where
  status : Nat
  headers : List (String × String)
  body : Body
  deriving DecidableEq, Repr

/-- A fresh response writer, as handed to `ServeHTTP` for each request. -/
def Response.init : Response :=
  { status := 200, headers := [], body := Body.empty }

/-- Embeds `http.Header.Set`: replaces any existing value of the key. -/
def Response.setHeader (w : Response) (k v : String) : Response :=
  { w with headers := (w.headers.filter (fun p => p.1 ≠ k)) ++ [(k, v)] }

/-- Header lookup on a response. -/
def Response.getHeader (w : Response) (k : String) : Option String :=
  (w.headers.find? (fun p => p.1 = k)).map (·.2)

/-- The fixed header name constant `contentTypeHeader` of the Go file. -/
def contentTypeHeader : String := "Content-Type"

/-- Modelled from the spec: `network.ProtoAcceptContent`, the fixed
protocol-identifying content-type constant from the external
`knative.dev/networking` package (its exact value is outside this
repository; all claims need only that it is one fixed constant). -/
def ProtoAcceptContent : String := "application/protobuf"

/-- Modelled from the spec: the external `http.Error` helper at its
interface boundary — sets a server-error status and writes the given
message as the body. -/
def httpRespondError (w : Response) (msg : String) (code : Nat) : Response :=
  { w with status := code, body := Body.text msg }

/-- Embeds the file's `httpError` helper: prefixes the diagnostic message
and responds with `http.StatusInternalServerError` (500). -/
def httpError (w : Response) (errMsg : String) : Response :=
  httpRespondError w ("An error has occurred while serving metrics:\n\n" ++ errMsg) 500

/-- `w.Write(buffer)` on a fresh writer: the body becomes the bytes. -/
def Response.setBody (w : Response) (buffer : List Nat) : Response :=
  { w with body := Body.bytes buffer }

/-- The external protobuf codec (`proto.Marshal`) at its interface
boundary: a function from snapshots to either bytes or an error message. -/
def Marshaller (F : Type) : Type := Stat F → Except String (List Nat)

/-- Embeds `ProtobufStatsReporter.ServeHTTP`: loads the cell; if empty,
responds with the no-data error; otherwise marshals the snapshot, and on
failure responds with the encoder's error, on success sets the
content-type header and writes the bytes.  Returns the reporter together
with the response: `ServeHTTP` performs no `Store`, so the reporter it
leaves behind is the one it was given. -/
def ProtobufStatsReporter.ServeHTTP {F : Type}
    (r : ProtobufStatsReporter F) (marshal : Marshaller F) :
    ProtobufStatsReporter F × Response :=
  match r.stat with
  | none => (r, httpError Response.init "no metrics available yet")
  | some data =>
    match marshal data with
    | Except.error e => (r, httpError Response.init e)
    | Except.ok buffer =>
        (r, (Response.init.setHeader contentTypeHeader ProtoAcceptContent).setBody buffer)

/-- One sequential ingestion history: `Report` applied left to right over
a list of (instant, raw report) pairs. -/
def ProtobufStatsReporter.ReportAll {F : Type} [Sub F] [Div F]
    (r : ProtobufStatsReporter F) (l : List (F × RequestStatsReport F)) :
    ProtobufStatsReporter F :=
  l.foldl (fun acc p => acc.Report p.1 p.2) r

/-- The two operations that race on a shared reporter: a producer
ingestion (one `atomic.Value.Store` of a complete snapshot) and a scrape
(one `atomic.Value.Load` plus pure computation).  An interleaving of the
concurrent calls is a list of these events; the atomicity of
`atomic.Value` is what makes each event one indivisible step. -/
inductive Event (F : Type) where
  | ingest (now : F) (stats : RequestStatsReport F)
  | serve
  deriving DecidableEq, Repr

/-- Runs one interleaving of concurrent `Report` and `ServeHTTP` calls on
a shared reporter and collects the response of every scrape, in order. -/
def runTrace {F : Type} [Sub F] [Div F] (marshal : Marshaller F) :
    ProtobufStatsReporter F → List (Event F) → List Response
  | _, [] => []
  | r, Event.ingest now s :: evs => runTrace marshal (r.Report now s) evs
  | r, Event.serve :: evs =>
      (r.ServeHTTP marshal).2 :: runTrace marshal (r.ServeHTTP marshal).1 evs

lemma Report_identity {F : Type} [Sub F] [Div F] (r : ProtobufStatsReporter F)
    (now : F) (stats : RequestStatsReport F) :
    (r.Report now stats).podName = r.podName ∧
    (r.Report now stats).startTime = r.startTime ∧
    (r.Report now stats).reportingPeriodSeconds = r.reportingPeriodSeconds :=
  ⟨rfl, rfl, rfl⟩

lemma Report_Report {F : Type} [Sub F] [Div F] (r : ProtobufStatsReporter F)
    (n1 n2 : F) (s1 s2 : RequestStatsReport F) :
    (r.Report n1 s1).Report n2 s2 = r.Report n2 s2 :=
  rfl

lemma ReportAll_append_last {F : Type} [Sub F] [Div F]
    (r : ProtobufStatsReporter F) (l : List (F × RequestStatsReport F))
    (p : F × RequestStatsReport F) :
    r.ReportAll (l ++ [p]) = r.Report p.1 p.2 := by
  induction l generalizing r with
  | nil => rfl
  | cons a l ih =>
      show (r.Report a.1 a.2).ReportAll (l ++ [p]) = r.Report p.1 p.2
      rw [ih (r.Report a.1 a.2), Report_Report]

lemma ServeHTTP_fst {F : Type} (r : ProtobufStatsReporter F)
    (marshal : Marshaller F) : (r.ServeHTTP marshal).1 = r := by
  cases h : r.stat with
  | none => simp [ProtobufStatsReporter.ServeHTTP, h]
  | some data =>
      cases hm : marshal data with
      | error e => simp [ProtobufStatsReporter.ServeHTTP, h, hm]
      | ok buffer => simp [ProtobufStatsReporter.ServeHTTP, h, hm]

lemma reportedStat_congr {F : Type} [Sub F] [Div F]
    (r r0 : ProtobufStatsReporter F)
    (h1 : r.podName = r0.podName) (h2 : r.startTime = r0.startTime)
    (h3 : r.reportingPeriodSeconds = r0.reportingPeriodSeconds) :
    r.reportedStat = r0.reportedStat := by
  funext now s
  simp [ProtobufStatsReporter.reportedStat, h1, h2, h3]

lemma runTrace_justified {F : Type} [Sub F] [Div F] (marshal : Marshaller F)
    (r0 : ProtobufStatsReporter F) :
    ∀ (trace : List (Event F)) (r : ProtobufStatsReporter F)
      (Q : F → RequestStatsReport F → Prop),
      r.podName = r0.podName → r.startTime = r0.startTime →
      r.reportingPeriodSeconds = r0.reportingPeriodSeconds →
      (r.stat = none ∨
        ∃ now s, Q now s ∧ r.stat = some (r0.reportedStat now s)) →
      ∀ resp ∈ runTrace marshal r trace, resp.status = 200 →
      ∃ now s, (Q now s ∨ Event.ingest now s ∈ trace) ∧
        ∃ buf, marshal (r0.reportedStat now s) = Except.ok buf ∧
          resp.body = Body.bytes buf := by
  intro trace
  induction trace with
  | nil =>
      intro r Q _ _ _ _ resp hresp _
      simp [runTrace] at hresp
  | cons ev evs ih =>
      intro r Q h1 h2 h3 hstat resp hresp hok
      cases ev with
      | ingest now s =>
          have hresp' : resp ∈ runTrace marshal (r.Report now s) evs := hresp
          have hcongr := reportedStat_congr r r0 h1 h2 h3
          have hstep := ih (r.Report now s)
            (fun n t => Q n t ∨ (n = now ∧ t = s)) h1 h2 h3
            (Or.inr ⟨now, s, Or.inr ⟨rfl, rfl⟩, by
              show some (r.reportedStat now s) = some (r0.reportedStat now s)
              rw [hcongr]⟩)
            resp hresp' hok
          obtain ⟨n, t, hmem, buf, hm, hb⟩ := hstep
          refine ⟨n, t, ?_, buf, hm, hb⟩
          rcases hmem with (hq | ⟨hn, ht⟩) | hin
          · exact Or.inl hq
          · subst hn; subst ht
            exact Or.inr (List.mem_cons_self _ _)
          · exact Or.inr (List.mem_cons_of_mem _ hin)
      | serve =>
          rcases List.mem_cons.mp hresp with heq | htail
          · rcases hstat with hnone | ⟨now, s, hQ, hsome⟩
            · exfalso
              have h500 : (r.ServeHTTP marshal).2.status = 500 := by
                simp [ProtobufStatsReporter.ServeHTTP, hnone, httpError,
                  httpRespondError, Response.init]
              rw [heq, h500] at hok
              exact absurd hok (by decide)
            · cases hm : marshal (r0.reportedStat now s) with
              | error e =>
                  exfalso
                  have h500 : (r.ServeHTTP marshal).2.status = 500 := by
                    simp [ProtobufStatsReporter.ServeHTTP, hsome, hm, httpError,
                      httpRespondError, Response.init]
                  rw [heq, h500] at hok
                  exact absurd hok (by decide)
              | ok buf =>
                  refine ⟨now, s, Or.inl hQ, buf, hm, ?_⟩
                  rw [heq]
                  simp [ProtobufStatsReporter.ServeHTTP, hsome, hm,
                    Response.setBody, Response.setHeader, Response.init]
          · rw [ServeHTTP_fst] at htail
            obtain ⟨n, t, hmem, rest⟩ := ih r Q h1 h2 h3 hstat resp htail hok
            refine ⟨n, t, ?_, rest⟩
            rcases hmem with hq | hin
            · exact Or.inl hq
            · exact Or.inr (List.mem_cons_of_mem _ hin)

/-- A sample raw report over `ℚ`, used in concrete instantiations. -/
def sampleRaw : RequestStatsReport ℚ :=
  { requestCount := 120
    proxiedRequestCount := 0
    averageConcurrency := 2
    averageProxiedConcurrency := 0 }

/-- A sample snapshot over `ℚ`, used in concrete instantiations. -/
def sampleStat : Stat ℚ :=
  { podName := "pod-a"
    processUptime := 1
    requestCount := 2
    proxiedRequestCount := 0
    averageConcurrentRequests := 2
    averageProxiedConcurrentRequests := 0 }

/-- A sample reporter over `ℚ` whose cell already holds a snapshot. -/
def sampleReporter : ProtobufStatsReporter ℚ :=
  { startTime := 0
    stat := some sampleStat
    podName := "pod-a"
    reportingPeriodSeconds := 60 }

/-- A sample codec that always succeeds with the bytes `[1, 2, 3]`. -/
def okMarshal : Marshaller ℚ := fun _ => Except.ok [1, 2, 3]

/-- A sample codec that always fails with the message "encode failed". -/
def errMarshal : Marshaller ℚ := fun _ => Except.error "encode failed"

/-- C1: for any raw report `R` and any reporter constructed with reporting
period `P` seconds, after `Report R` the published snapshot's
requests-per-second field (`Stat.requestCount`) equals `R.requestCount / P`
and its proxied-requests-per-second field equals
`R.proxiedRequestCount / P` — the carrier's division applied once, with no
rounding or other transformation. -/
theorem C1_rate_computation (F : Type) [Sub F] [Div F] (pod : String)
    (t0 now P : F) (R : RequestStatsReport F) :
    (((NewProtobufStatsReporter F pod t0 P).Report now R).stat).map Stat.requestCount
        = some (R.requestCount / P) ∧
    (((NewProtobufStatsReporter F pod t0 P).Report now R).stat).map Stat.proxiedRequestCount
        = some (R.proxiedRequestCount / P) :=
  ⟨rfl, rfl⟩

/-- C2: for every raw report and every reporter state, the snapshot
published by `Report` carries the input's `averageConcurrency` and
`averageProxiedConcurrency` through unchanged into
`averageConcurrentRequests` and `averageProxiedConcurrentRequests`. -/
theorem C2_passthrough (F : Type) [Sub F] [Div F]
    (r : ProtobufStatsReporter F) (now : F) (R : RequestStatsReport F) :
    ((r.Report now R).stat).map Stat.averageConcurrentRequests
        = some R.averageConcurrency ∧
    ((r.Report now R).stat).map Stat.averageProxiedConcurrentRequests
        = some R.averageProxiedConcurrency :=
  ⟨rfl, rfl⟩

/-- C3: for a freshly constructed reporter on which `Report` has never
been called, `ServeHTTP` produces — for every codec, without invoking it —
the 500 response whose body is the fixed diagnostic text
"An error has occurred while serving metrics:" (two newlines) followed by
"no metrics available yet", with no bytes written and no headers set. -/
theorem C3_cold_start (F : Type) (pod : String) (t0 P : F)
    (marshal : Marshaller F) :
    ((NewProtobufStatsReporter F pod t0 P).ServeHTTP marshal).2
      = { status := 500
          headers := []
          body := Body.text ("An error has occurred while serving metrics:\n\n"
                    ++ "no metrics available yet") } :=
  rfl

/-- C4: when the cell holds a snapshot and the codec succeeds on it,
`ServeHTTP` sets the Content-Type header to the fixed
protocol-identifying constant, writes exactly the codec's byte sequence
as the full body, and leaves the implicit 200 status. -/
theorem C4_success_response (F : Type) (r : ProtobufStatsReporter F)
    (marshal : Marshaller F) (s : Stat F) (buf : List Nat)
    (hs : r.stat = some s) (hm : marshal s = Except.ok buf) :
    (r.ServeHTTP marshal).2
      = { status := 200
          headers := [(contentTypeHeader, ProtoAcceptContent)]
          body := Body.bytes buf } := by
  simp [ProtobufStatsReporter.ServeHTTP, hs, hm, Response.setHeader,
    Response.setBody, Response.init]

/-- Witness for C4 at a concrete reporter and codec. -/
theorem C4_success_response_witness :
    (sampleReporter.ServeHTTP okMarshal).2
      = { status := 200
          headers := [(contentTypeHeader, ProtoAcceptContent)]
          body := Body.bytes [1, 2, 3] } :=
  C4_success_response ℚ sampleReporter okMarshal sampleStat [1, 2, 3] rfl rfl

/-- C5: when the cell holds a snapshot but the codec fails on it,
`ServeHTTP` produces the 500 response whose body is the fixed diagnostic
text followed by the codec's error message, writes no bytes and no
headers, and returns the reporter unchanged, so later scrapes and
ingestions are unaffected. -/
theorem C5_encode_error (F : Type) (r : ProtobufStatsReporter F)
    (marshal : Marshaller F) (s : Stat F) (e : String)
    (hs : r.stat = some s) (hm : marshal s = Except.error e) :
    (r.ServeHTTP marshal).1 = r ∧
    (r.ServeHTTP marshal).2
      = { status := 500
          headers := []
          body := Body.text ("An error has occurred while serving metrics:\n\n"
                    ++ e) } :=
  ⟨ServeHTTP_fst r marshal, by
    simp [ProtobufStatsReporter.ServeHTTP, hs, hm, httpError,
      httpRespondError, Response.init]⟩

/-- Witness for C5 at a concrete reporter and failing codec. -/
theorem C5_encode_error_witness :
    (sampleReporter.ServeHTTP errMarshal).1 = sampleReporter ∧
    (sampleReporter.ServeHTTP errMarshal).2
      = { status := 500
          headers := []
          body := Body.text ("An error has occurred while serving metrics:\n\n"
                    ++ "encode failed") } :=
  C5_encode_error ℚ sampleReporter errMarshal sampleStat "encode failed" rfl rfl

/-- C6: after a sequence of `Report` calls ending with the report `p`
(so N sequential ingestions, N at least 1), the cell holds exactly the
snapshot of the last report, and a subsequent `ServeHTTP` behaves
identically to one on a reporter that only ever ingested that last
report — never a stale mix of fields from earlier reports. -/
theorem C6_monotonic_replacement (F : Type) [Sub F] [Div F]
    (r0 : ProtobufStatsReporter F) (l : List (F × RequestStatsReport F))
    (p : F × RequestStatsReport F) :
    (r0.ReportAll (l ++ [p])).stat = some (r0.reportedStat p.1 p.2) ∧
    ∀ marshal : Marshaller F,
      (r0.ReportAll (l ++ [p])).ServeHTTP marshal
        = (r0.Report p.1 p.2).ServeHTTP marshal := by
  have h := ReportAll_append_last r0 l p
  exact ⟨by rw [h]; rfl, fun marshal => by rw [h]⟩

/-- C7: every snapshot ever published by any sequence of `Report` calls
on a reporter constructed with instance name `pod` carries
`podName = pod`. -/
theorem C7_identity_stability (F : Type) [Sub F] [Div F] (pod : String)
    (t0 P : F) (l : List (F × RequestStatsReport F)) (s : Stat F)
    (h : ((NewProtobufStatsReporter F pod t0 P).ReportAll l).stat = some s) :
    s.podName = pod := by
  rcases List.eq_nil_or_concat l with rfl | ⟨l', p, rfl⟩
  · simp [ProtobufStatsReporter.ReportAll, NewProtobufStatsReporter] at h
  · rw [List.concat_eq_append, ReportAll_append_last] at h
    have h' : some ((NewProtobufStatsReporter F pod t0 P).reportedStat p.1 p.2)
        = some s := h
    injection h' with h2
    subst h2
    rfl

/-- Witness for C7 at a concrete one-ingestion history. -/
theorem C7_identity_stability_witness :
    ((NewProtobufStatsReporter ℚ "pod-a" 0 60).reportedStat 1 sampleRaw).podName
      = "pod-a" :=
  C7_identity_stability ℚ "pod-a" 0 60 [(1, sampleRaw)]
    ((NewProtobufStatsReporter ℚ "pod-a" 0 60).reportedStat 1 sampleRaw) rfl

/-- C8: `Report` has no error path: it is a total function that, for
every raw report over every carrier — negative values and, for carriers
that have them, non-finite values included — performs no validation and
publishes the snapshot with the count fields divided by the period and
all other input fields propagated unchanged. -/
theorem C8_no_error_path (F : Type) [Sub F] [Div F]
    (r : ProtobufStatsReporter F) (now : F) (R : RequestStatsReport F) :
    (r.Report now R).stat = some
      { podName := r.podName
        processUptime := now - r.startTime
        requestCount := R.requestCount / r.reportingPeriodSeconds
        proxiedRequestCount := R.proxiedRequestCount / r.reportingPeriodSeconds
        averageConcurrentRequests := R.averageConcurrency
        averageProxiedConcurrentRequests := R.averageProxiedConcurrency } :=
  rfl

/-- C9: in every interleaving of concurrent `Report` and `ServeHTTP`
calls on one freshly constructed shared reporter, every successful (200)
response's body is exactly the codec's encoding of the snapshot produced
by one single ingestion event of the interleaving — never a mixture of
fields from two different ingestions. -/
theorem C9_no_tearing (F : Type) [Sub F] [Div F] (pod : String) (t0 P : F)
    (marshal : Marshaller F) (trace : List (Event F)) (resp : Response)
    (hmem : resp ∈ runTrace marshal (NewProtobufStatsReporter F pod t0 P) trace)
    (hok : resp.status = 200) :
    ∃ now s, Event.ingest now s ∈ trace ∧
      ∃ buf, marshal ((NewProtobufStatsReporter F pod t0 P).reportedStat now s)
          = Except.ok buf ∧ resp.body = Body.bytes buf := by
  obtain ⟨now, s, hmem', buf, hm, hb⟩ :=
    runTrace_justified marshal (NewProtobufStatsReporter F pod t0 P) trace
      (NewProtobufStatsReporter F pod t0 P) (fun _ _ => False)
      rfl rfl rfl (Or.inl rfl) resp hmem hok
  rcases hmem' with hfalse | hin
  · exact hfalse.elim
  · exact ⟨now, s, hin, buf, hm, hb⟩

/-- Witness for C9 at the concrete interleaving: one ingestion followed
by one scrape. -/
theorem C9_no_tearing_witness :
    ∃ now s, Event.ingest now s ∈ [Event.ingest (1 : ℚ) sampleRaw, Event.serve] ∧
      ∃ buf, okMarshal ((NewProtobufStatsReporter ℚ "pod-a" 0 60).reportedStat now s)
          = Except.ok buf ∧
        (Response.mk 200 [(contentTypeHeader, ProtoAcceptContent)]
          (Body.bytes [1, 2, 3])).body = Body.bytes buf :=
  C9_no_tearing ℚ "pod-a" 0 60 okMarshal
    [Event.ingest (1 : ℚ) sampleRaw, Event.serve]
    (Response.mk 200 [(contentTypeHeader, ProtoAcceptContent)]
      (Body.bytes [1, 2, 3]))
    (List.Mem.head _) rfl

/-- C10: on both error paths of `ServeHTTP` — empty cell, or codec
failure — the Content-Type header is never set at all, and in particular
never set to the protocol-identifying constant. -/
theorem C10_error_paths_no_content_type (F : Type)
    (r : ProtobufStatsReporter F) (marshal : Marshaller F)
    (h : r.stat = none ∨ ∃ s e, r.stat = some s ∧ marshal s = Except.error e) :
    (r.ServeHTTP marshal).2.getHeader contentTypeHeader = none ∧
    (r.ServeHTTP marshal).2.getHeader contentTypeHeader
      ≠ some ProtoAcceptContent := by
  have hnone : (r.ServeHTTP marshal).2.headers = [] := by
    rcases h with h | ⟨s, e, hs, hm⟩
    · simp [ProtobufStatsReporter.ServeHTTP, h, httpError, httpRespondError,
        Response.init]
    · simp [ProtobufStatsReporter.ServeHTTP, hs, hm, httpError,
        httpRespondError, Response.init]
  refine ⟨?_, ?_⟩
  · simp [Response.getHeader, hnone]
  · simp [Response.getHeader, hnone]

/-- Witness for C10 at a concrete fresh reporter. -/
theorem C10_error_paths_no_content_type_witness :
    ((NewProtobufStatsReporter ℚ "pod-a" 0 60).ServeHTTP okMarshal).2.getHeader
        contentTypeHeader = none ∧
    ((NewProtobufStatsReporter ℚ "pod-a" 0 60).ServeHTTP okMarshal).2.getHeader
        contentTypeHeader ≠ some ProtoAcceptContent :=
  C10_error_paths_no_content_type ℚ (NewProtobufStatsReporter ℚ "pod-a" 0 60)
    okMarshal (Or.inl rfl)
